import Mathlib

/-!
Verification of the monkey-interpreter repository (Go): a shallow embedding
of its parser, object model, environment, built-in functions and evaluator,
with theorems settling the frozen claims about the specification.

Source files embedded:
  * ast/ast.go                  - AST node shapes (statements / expressions)
  * object/object.go            - runtime objects, HashKey derivation
  * object environment file     - Environment Get / Set / NewEnclosedEnvironment
  * evaluator/builtins.go       - length, head, tail, last, push, builtins map
  * evaluator (Eval and helpers)- Eval, evalProgram, evalBlockStatement,
                                  evalIdentifier, applyFunction, ...
  * parser (parser.go)          - Pratt parser, ParseProgram, parseLetStatement,
                                  parseReturnStatement, parseIntegerLiteral, ...

Go runtime panics (index out of range, nil dereference, failed type
assertion, division by zero) are modelled as `none`; the evaluator and the
parser otherwise return `some` results.  Go's `nil` value of the `Object`
interface (produced by `Eval`'s default case and by empty statement lists)
is modelled by the constructor `Obj.nilObj`.
-/

namespace Monkey

/-! ### Tokens

Modelled from the spec: the `token` package is not among the source files
(only the lexer and parser that consume it are), so the token kinds and the
string values of the `TokenType` constants follow spec section 3.1
(`ASSIGN(=)`, `EQ(==)`, `NOT_EQ(!=)`, ...).  A token is a `(kind, literal)`
pair. -/

namespace token

def ILLEGAL : String := "ILLEGAL"

def EOF : String := "EOF"

def IDENT : String := "IDENT"

def INT : String := "INT"

def STRING : String := "STRING"

def ASSIGN : String := "="

def PLUS : String := "+"

def MINUS : String := "-"

def BANG : String := "!"

def ASTERISK : String := "*"

def SLASH : String := "/"

def LT : String := "<"

def GT : String := ">"

def EQ : String := "=="

def NOT_EQ : String := "!="

def COMMA : String := ","

def SEMICOLON : String := ";"

def COLON : String := ":"

def LPAREN : String := "("

def RPAREN : String := ")"

def LBRACE : String := "\x7b"

def RBRACE : String := "\x7d"

def LBRACKET : String := "["

def RBRACKET : String := "]"

def FUNCTION : String := "FUNCTION"

def LET : String := "LET"

def TRUE : String := "TRUE"

def FALSE : String := "FALSE"

def IF : String := "IF"

def ELSE : String := "ELSE"

def RETURN : String := "RETURN"

end token

/-- A token as produced by the lexer: `{Type, Literal}`. -/
structure Token where
  type : String
  literal : String
deriving Repr, DecidableEq

/-! ### AST (ast/ast.go), evaluator view

The evaluator's view of the AST: the node shapes of `ast.go`.  Identifiers
in binding positions are represented by their `Value` string (the evaluator
only ever reads `Name.Value` / `Parameters[i].Value`).  A block statement is
its list of statements. -/

mutual

inductive Expr where
  | ident (name : String)
  | intLit (value : Int)
  | boolLit (value : Bool)
  | strLit (value : String)
  | arrayLit (elements : List Expr)
  | hashLit (pairs : List (Expr × Expr))
  | prefixE (op : String) (right : Expr)
  | infixE (op : String) (left : Expr) (right : Expr)
  | ifE (cond : Expr) (consequence : List Stmt) (alternative : Option (List Stmt))
  | funcLit (params : List String) (body : List Stmt)
  | callE (fn : Expr) (args : List Expr)
  | indexE (left : Expr) (idx : Expr)

inductive Stmt where
  | letS (name : String) (value : Expr)
  | returnS (value : Expr)
  | exprS (e : Expr)

end

/-! ### Runtime objects (object/object.go) -/

/-- ObjectType constant `INTEGER_OBJ`. -/
def INTEGER_OBJ : String := "INTEGER"

def BOOLEAN_OBJ : String := "BOOLEAN"

def NULL_OBJ : String := "NULL"

def RETURN_VALUE_OBJ : String := "RETURN_VALUE"

def ERROR_OBJ : String := "ERROR"

def FUNCTION_OBJ : String := "FUNCTION"

def STRING_OBJ : String := "STRING"

def BUILTIN_OBJ : String := "BUILTIN"

def ARRAY_OBJ : String := "ARRAY"

def HASH_OBJ : String := "HASH"

/-- `object.HashKey`: a `(Type, Value)` pair; `Value` models Go's `uint64`
as a natural number below `2 ^ 64`. -/
structure HashKey where
  type : String
  value : Nat
deriving Repr, DecidableEq, BEq

/-- Go's `uint64(v)` conversion of an `int64` value: reduction modulo
`2 ^ 64` (two's complement bit cast). -/
def toUInt64Bits (v : Int) : Nat := (v % (2 : Int) ^ 64).toNat

/-- `Integer.HashKey`: `HashKey{Type: INTEGER_OBJ, Value: uint64(i.Value)}`. -/
def integerHashKey (v : Int) : HashKey := ⟨INTEGER_OBJ, toUInt64Bits v⟩

/-- `Boolean.HashKey`: value 1 for true, 0 for false. -/
def booleanHashKey (b : Bool) : HashKey := ⟨BOOLEAN_OBJ, if b then 1 else 0⟩

/-- One step of FNV-1a: xor the byte into the hash and multiply by the FNV
prime, modulo `2 ^ 64`. -/
def fnv1a64Step (h b : Nat) : Nat := ((h ^^^ b) * 1099511628211) % 2 ^ 64

/-- 64-bit FNV-1a over the UTF-8 bytes of a string (`hash/fnv`, `fnv.New64a`). -/
def fnv1a64 (s : String) : Nat :=
  s.toUTF8.toList.foldl (fun h b => fnv1a64Step h b.toNat) 14695981039346656037

/-- `String.HashKey`: FNV-1a 64-bit hash of the string's bytes. -/
def stringHashKey (s : String) : HashKey := ⟨STRING_OBJ, fnv1a64 s⟩

/-- Runtime objects (`object.Object` implementations).  `nilObj` models a
nil `Object` interface value (it is not one of the Go object structs); an
environment is a chain of scopes, innermost first, each scope an
association list for the scope's `store` map (later `Set`s are consed in
front, so lookup of the first match agrees with the Go map). -/
inductive Obj where
  | integer (value : Int)
  | boolean (value : Bool)
  | null
  | nilObj
  | str (value : String)
  | returnValue (value : Obj)
  | error (message : String)
  | func (params : List String) (body : List Stmt) (env : List (List (String × Obj)))
  | builtinO (name : String)
  | array (elements : List Obj)
  | hashO (pairs : List (HashKey × Obj × Obj))

/-- An environment chain: the head is the current scope's store, the tail
is the `outer` chain (`object.Environment`). -/
abbrev Env := List (List (String × Obj))

/-- `object.NewEnvironment()`: one empty scope, no outer. -/
def newEnvironment : Env := [[]]

/-- `object.NewEnclosedEnvironment(outer)`: a fresh empty store in front of
the outer chain. -/
def envNewEnclosed (outer : Env) : Env := [] :: outer

/-- Lookup in one scope's store map. -/
def storeGet : List (String × Obj) → String → Option Obj
  | [], _ => none
  | (k, v) :: rest, key => if k == key then some v else storeGet rest key

/-- `Environment.Get`: look in the current store; on a miss, recurse into
`outer` when it exists. -/
def envGet : Env → String → Option Obj
  | [], _ => none
  | store :: outer, key =>
    match storeGet store key with
    | some v => some v
    | none => envGet outer key

/-- `Environment.Set`: write into the current scope's store only. -/
def envSet : Env → String → Obj → Env
  | [], key, v => [[(key, v)]]
  | store :: outer, key, v => ((key, v) :: store) :: outer

/-- `Object.Type()`.  A nil interface value has no `Type` method: calling
it panics, modelled as `none`. -/
def typeOf : Obj → Option String
  | .integer _ => some INTEGER_OBJ
  | .boolean _ => some BOOLEAN_OBJ
  | .null => some NULL_OBJ
  | .nilObj => none
  | .str _ => some STRING_OBJ
  | .returnValue _ => some RETURN_VALUE_OBJ
  | .error _ => some ERROR_OBJ
  | .func _ _ _ => some FUNCTION_OBJ
  | .builtinO _ => some BUILTIN_OBJ
  | .array _ => some ARRAY_OBJ
  | .hashO _ => some HASH_OBJ

/-- `isError`: non-nil and of type `ERROR_OBJ`. -/
def isError : Obj → Bool
  | .error _ => true
  | _ => false

/-- Type test used to state claims: is the object a `RETURN_VALUE`? -/
def isReturnValue : Obj → Bool
  | .returnValue _ => true
  | _ => false

/-- Test for the modelled nil interface value. -/
def isNilObj : Obj → Bool
  | .nilObj => true
  | _ => false

/-- Test for `ARRAY_OBJ` objects. -/
def isArrayObj : Obj → Bool
  | .array _ => true
  | _ => false

/-- Test for `STRING_OBJ` objects. -/
def isStringObj : Obj → Bool
  | .str _ => true
  | _ => false

/-- `isTruthy`: everything but the `FALSE` and `NULL` singletons is truthy
(the evaluator produces booleans only through the interned singletons, so
identity comparison coincides with the payload). -/
def isTruthy : Obj → Bool
  | .boolean false => false
  | .null => false
  | _ => true

/-- `nativeBoolToBooleanObject`. -/
def nativeBoolToBooleanObject (b : Bool) : Obj := .boolean b

/-- `unwrapReturnValue`: strip one outermost `ReturnValue` wrapper. -/
def unwrapReturnValue : Obj → Obj
  | .returnValue v => v
  | o => o

/-- The hashable-interface test (`object.Hashable`): `HashKey()` of the
object when it has one. -/
def hashKeyOf : Obj → Option HashKey
  | .integer v => some (integerHashKey v)
  | .boolean b => some (booleanHashKey b)
  | .str s => some (stringHashKey s)
  | _ => none

/-! ### Built-in functions (evaluator/builtins.go)

Each builtin takes the argument slice and returns an object; a nil argument
makes the Go code call `.Type()` on a nil interface, which panics
(`none`). -/

/-- Builtin `len` (function `length`): length of a String (bytes) or Array;
wrong arity or other types produce Error values. -/
def length : List Obj → Option Obj
  | [.str s] => some (.integer (s.utf8ByteSize : Int))
  | [.array es] => some (.integer (es.length : Int))
  | [a] => (typeOf a).map fun t => .error (("argument to `len` not supported, got ") ++ t)
  | args =>
    some (.error (("wrong number of arguments. got=") ++ toString args.length ++ (", want=1)")))

/-- Builtin `head`: first element of an Array, NULL when empty.  (The
type-error message says `len`, as in the source.) -/
def head : List Obj → Option Obj
  | [.array []] => some .null
  | [.array (e :: _)] => some e
  | [a] => (typeOf a).map fun t => .error (("argument to `len` not supported, got ") ++ t)
  | args =>
    some (.error (("wrong number of arguments. got=") ++ toString args.length ++ (", want=1)")))

/-- Builtin `tail`: arrays with fewer than 2 elements map to a fresh empty
array, otherwise a fresh array of `Elements[1:]`. -/
def tail : List Obj → Option Obj
  | [.array es] =>
    if es.length < 2 then some (.array []) else some (.array es.tail)
  | [a] => (typeOf a).map fun t => .error (("argument to `len` not supported, got ") ++ t)
  | args =>
    some (.error (("wrong number of arguments. got=") ++ toString args.length ++ (", want=1)")))

/-- Builtin `last`: last element of an Array, NULL when empty. -/
def last : List Obj → Option Obj
  | [.array es] =>
    match es.getLast? with
    | none => some .null
    | some e => some e
  | [a] => (typeOf a).map fun t => .error (("argument to `len` not supported, got ") ++ t)
  | args =>
    some (.error (("wrong number of arguments. got=") ++ toString args.length ++ (", want=1)")))

/-- Builtin `push`: fresh array with the second argument appended; the
first argument must be an Array. -/
def push : List Obj → Option Obj
  | [.array es, x] => some (.array (es ++ [x]))
  | [a, _] => (typeOf a).map fun t => .error (("argument to `push` not supported, got ") ++ t)
  | args =>
    some (.error (("wrong number of arguments. got=") ++ toString args.length ++ (", want=2)")))

/-- The `builtins` map of evaluator/builtins.go: the five installed names,
each bound to its `*object.Builtin` (one interned object per name). -/
def builtins (name : String) : Option Obj :=
  if name ∈ [("len"), ("head"), ("tail"), ("last"), ("push")] then some (.builtinO name)
  else none

/-- Dispatch `Builtin.Fn` by the (interned) builtin's name. -/
def builtinFn (name : String) (args : List Obj) : Option Obj :=
  if name == "len" then length args
  else if name == "head" then head args
  else if name == "tail" then tail args
  else if name == "last" then last args
  else if name == "push" then push args
  else none

/-! ### Pure evaluator helpers (evaluator, second half of evaluator_test.go) -/

/-- Go's wrap-around two's-complement `int64` arithmetic: reduce into
`[-2 ^ 63, 2 ^ 63)`. -/
def wrap64 (n : Int) : Int := (n + 2 ^ 63) % 2 ^ 64 - 2 ^ 63

/-- `evalBangPrefixOperatorExpression`: switch on the singletons; anything
else (a nil value included) is mapped to FALSE. -/
def evalBangPrefixOperatorExpression : Obj → Obj
  | .boolean true => .boolean false
  | .boolean false => .boolean true
  | .null => .boolean true
  | _ => .boolean false

/-- `evalMinusPrefixOperatorExpression`: negate an Integer; other types
give `unknown operator: -<type>`. -/
def evalMinusPrefixOperatorExpression (right : Obj) : Option Obj :=
  match typeOf right with
  | none => none
  | some t =>
    if t == INTEGER_OBJ then
      match right with
      | .integer v => some (.integer (wrap64 (-v)))
      | _ => none
    else some (.error (("unknown operator: -") ++ t))

/-- `evalPrefixExpression`: dispatch on the operator. -/
def evalPrefixExpression (op : String) (right : Obj) : Option Obj :=
  if op == "!" then some (evalBangPrefixOperatorExpression right)
  else if op == "-" then evalMinusPrefixOperatorExpression right
  else (typeOf right).map fun t => .error (("unknown operator: ") ++ op ++ (" ") ++ t)

/-- `evalInfixIntegerExpression`: both operands are Integers here (the
caller checked the type tags).  Go division panics on a zero divisor. -/
def evalInfixIntegerExpression (op : String) (l r : Int) : Option Obj :=
  if op == "+" then some (.integer (wrap64 (l + r)))
  else if op == "-" then some (.integer (wrap64 (l - r)))
  else if op == "*" then some (.integer (wrap64 (l * r)))
  else if op == "/" then
    if r == 0 then none else some (.integer (wrap64 (Int.tdiv l r)))
  else if op == "==" then some (nativeBoolToBooleanObject (decide (l = r)))
  else if op == "!=" then some (nativeBoolToBooleanObject (decide (¬ l = r)))
  else if op == ">" then some (nativeBoolToBooleanObject (decide (r < l)))
  else if op == "<" then some (nativeBoolToBooleanObject (decide (l < r)))
  else some (.error (("unknown operator: INTEGER ") ++ op ++ (" INTEGER")))

/-- `evalInfixStringExpression`: only `+` (concatenation) is supported. -/
def evalInfixStringExpression (op : String) (l r : String) : Option Obj :=
  if op == "+" then some (.str (l ++ r))
  else some (.error (("unknown operator: STRING ") ++ op ++ (" STRING")))

/-- Pointer identity of two operand objects as compared by Go's `==` on
interface values.  TRUE, FALSE, NULL and the builtins are interned
singletons, so identity coincides with the payload for them; for functions,
arrays, hashes and return values Go compares allocation identity, which the
value model cannot express - those comparisons are left unmodelled
(`none`). -/
def goPtrEq (l r : Obj) : Option Bool :=
  match l, r with
  | .boolean a, .boolean b => some (a == b)
  | .null, .null => some true
  | .builtinO a, .builtinO b => some (a == b)
  | _, _ => none

/-- `evalInfixExpression`: type-tag mismatch, Integer arithmetic, String
concatenation, identity comparison, unknown operator - in source order. -/
def evalInfixExpression (op : String) (l r : Obj) : Option Obj :=
  match typeOf l, typeOf r with
  | some lt, some rt =>
    if lt != rt then some (.error (("type mismatch: ") ++ lt ++ (" ") ++ op ++ (" ") ++ rt))
    else if lt == INTEGER_OBJ && rt == INTEGER_OBJ then
      match l, r with
      | .integer a, .integer b => evalInfixIntegerExpression op a b
      | _, _ => none
    else if lt == STRING_OBJ && rt == STRING_OBJ then
      match l, r with
      | .str a, .str b => evalInfixStringExpression op a b
      | _, _ => none
    else if op == "==" then (goPtrEq l r).map nativeBoolToBooleanObject
    else if op == "!=" then (goPtrEq l r).map fun b => nativeBoolToBooleanObject (!b)
    else some (.error (("unknown operator: ") ++ lt ++ (" ") ++ op ++ (" ") ++ rt))
  | _, _ => none

/-- Lookup in a hash's pair map by derived key. -/
def hashPairsGet : List (HashKey × Obj × Obj) → HashKey → Option (Obj × Obj)
  | [], _ => none
  | (k, p) :: rest, key => if k == key then some p else hashPairsGet rest key

/-- Map-style insertion into a hash's pairs: a later write for the same
`HashKey` overwrites the earlier one. -/
def hashPairsInsert (pairs : List (HashKey × Obj × Obj)) (k : HashKey) (keyObj v : Obj) :
    List (HashKey × Obj × Obj) :=
  pairs.filter (fun p => !(p.1 == k)) ++ [(k, keyObj, v)]

/-- `evalIndexExpression`: Array indexing (Integer required - the source
type-asserts and would panic otherwise; out-of-range gives NULL), Hash
lookup (hashable key required), anything else gives NULL. -/
def evalIndexExpression (left index : Obj) : Option Obj :=
  match left with
  | .array es =>
    match index with
    | .integer i =>
      if i < 0 || i > (es.length : Int) - 1 then some .null
      else
        match es.get? i.toNat with
        | some e => some e
        | none => none
    | _ => none
  | .hashO pairs =>
    match hashKeyOf index with
    | some k =>
      match hashPairsGet pairs k with
      | some p => some p.2
      | none => some .null
    | none => (typeOf index).map fun t => .error (("unusable as hash key: ") ++ t)
  | _ => some .null

/-- `evalIdentifier`: the environment lookup result is computed first, but
the builtins table is consulted before it is inspected; only when the name
is not a builtin is the environment result returned, and only on a miss in
both is the `identifier not found` error produced. -/
def evalIdentifier (name : String) (env : Env) : Obj :=
  let val? := envGet env name
  match builtins name with
  | some b => b
  | none =>
    match val? with
    | some v => v
    | none => .error (("identifier not found: ") ++ name)

/-- The parameter-binding loop of `applyFunction`:
`for i, arg := range args { callEnv.Set(Parameters[i].Value, arg) }`.
The index `i` runs over the arguments; when it falls outside the parameter
slice the Go code panics with index out of range (`none`). -/
def bindArgsLoop : List String → Nat → List Obj → Env → Option Env
  | _, _, [], env => some env
  | params, i, arg :: rest, env =>
    match params[i]? with
    | none => none
    | some p => bindArgsLoop params (i + 1) rest (envSet env p arg)

/-- Parameter binding of `applyFunction`, starting at index 0. -/
def bindArgs (params : List String) (args : List Obj) (env : Env) : Option Env :=
  bindArgsLoop params 0 args env

/-! ### The evaluator (Eval and its mutually recursive helpers)

`Eval` is modelled by `evalStmt` / `evalExpr`, with the statement-list
folds `evalProgramStmts` (evalProgram) and `evalBlockStmts`
(evalBlockStatement), the argument-list fold `evalExprListLoop`
(evalExpressions) and `applyFunction`.  Go mutates the environment in
place; here every call returns the updated environment alongside the
object.  A fuel parameter bounds the recursion depth (the Go functions
recurse without bound); every recursive call spends one unit, and exhausted
fuel is `none`, distinguishable from any Go result only in that genuine
results are stated as `some`-equations. -/

mutual

def evalStmt : Nat → Stmt → Env → Option (Obj × Env)
  | 0, _, _ => none
  | fuel + 1, .letS name value, env =>
    match evalExpr fuel value env with
    | none => none
    | some (val, env₁) =>
      if isError val then some (val, env₁)
      else some (val, envSet env₁ name val)
  | fuel + 1, .returnS value, env =>
    match evalExpr fuel value env with
    | none => none
    | some (val, env₁) =>
      if isError val then some (val, env₁)
      else some (.returnValue val, env₁)
  | fuel + 1, .exprS e, env => evalExpr fuel e env

def evalExpr : Nat → Expr → Env → Option (Obj × Env)
  | 0, _, _ => none
  | fuel + 1, node, env =>
    match node with
    | .ident name => some (evalIdentifier name env, env)
    | .intLit v => some (.integer v, env)
    | .boolLit b => some (nativeBoolToBooleanObject b, env)
    | .strLit s => some (.str s, env)
    | .funcLit ps body => some (.func ps body env, env)
    | .prefixE op r =>
      match evalExpr fuel r env with
      | none => none
      | some (rv, env₁) =>
        if isError rv then some (rv, env₁)
        else
          match evalPrefixExpression op rv with
          | none => none
          | some res => some (res, env₁)
    | .infixE op l r =>
      match evalExpr fuel l env with
      | none => none
      | some (lv, env₁) =>
        match evalExpr fuel r env₁ with
        | none => none
        | some (rv, env₂) =>
          if isError lv then some (lv, env₂)
          else if isError rv then some (rv, env₂)
          else
            match evalInfixExpression op lv rv with
            | none => none
            | some res => some (res, env₂)
    | .ifE c cons alt =>
      match evalExpr fuel c env with
      | none => none
      | some (cv, env₁) =>
        if isError cv then some (cv, env₁)
        else if isTruthy cv then evalBlockStmts fuel cons env₁
        else
          match alt with
          | some b => evalBlockStmts fuel b env₁
          | none => some (.null, env₁)
    | .arrayLit es =>
      match evalExprListLoop fuel es env [] with
      | none => none
      | some (vals, env₁) =>
        match vals with
        | [a] => if isError a then some (a, env₁) else some (.array vals, env₁)
        | _ => some (.array vals, env₁)
    | .hashLit pairs => evalHashPairs fuel pairs env []
    | .callE f argEs =>
      match evalExpr fuel f env with
      | none => none
      | some (fv, env₁) =>
        if isError fv then some (fv, env₁)
        else
          match evalExprListLoop fuel argEs env₁ [] with
          | none => none
          | some (args, env₂) =>
            match args with
            | [a] =>
              if isError a then some (a, env₂)
              else
                match applyFunction fuel fv args with
                | none => none
                | some r => some (r, env₂)
            | _ =>
              match applyFunction fuel fv args with
              | none => none
              | some r => some (r, env₂)
    | .indexE l i =>
      match evalExpr fuel l env with
      | none => none
      | some (lv, env₁) =>
        if isError lv then some (lv, env₁)
        else
          match evalExpr fuel i env₁ with
          | none => none
          | some (iv, env₂) =>
            if isError iv then some (iv, env₂)
            else
              match evalIndexExpression lv iv with
              | none => none
              | some r => some (r, env₂)

def evalBlockStmts : Nat → List Stmt → Env → Option (Obj × Env)
  | 0, _, _ => none
  | _ + 1, [], env => some (.nilObj, env)
  | fuel + 1, s :: rest, env =>
    match evalStmt fuel s env with
    | none => none
    | some (r, env₁) =>
      if isReturnValue r then some (r, env₁)
      else if isError r then some (r, env₁)
      else if rest.isEmpty then some (r, env₁)
      else evalBlockStmts fuel rest env₁

def evalProgramStmts : Nat → List Stmt → Env → Option (Obj × Env)
  | 0, _, _ => none
  | _ + 1, [], env => some (.nilObj, env)
  | fuel + 1, s :: rest, env =>
    match evalStmt fuel s env with
    | none => none
    | some (r, env₁) =>
      match r with
      | .returnValue v => some (v, env₁)
      | .error m => some (.error m, env₁)
      | _ => if rest.isEmpty then some (r, env₁) else evalProgramStmts fuel rest env₁

def evalExprListLoop : Nat → List Expr → Env → List Obj → Option (List Obj × Env)
  | 0, _, _, _ => none
  | _ + 1, [], env, acc => some (acc, env)
  | fuel + 1, e :: rest, env, acc =>
    match evalExpr fuel e env with
    | none => none
    | some (v, env₁) =>
      if isError v then some ([v], env₁)
      else evalExprListLoop fuel rest env₁ (acc ++ [v])

def evalHashPairs :
    Nat → List (Expr × Expr) → Env → List (HashKey × Obj × Obj) → Option (Obj × Env)
  | 0, _, _, _ => none
  | _ + 1, [], env, acc => some (.hashO acc, env)
  | fuel + 1, (k, v) :: rest, env, acc =>
    match evalExpr fuel k env with
    | none => none
    | some (kv, env₁) =>
      if isError kv then some (kv, env₁)
      else
        match hashKeyOf kv with
        | none =>
          match typeOf kv with
          | none => none
          | some t =>
            some (.error (("Can\x27t use expression of type ") ++ t ++ (" as hash key")), env₁)
        | some hk =>
          match evalExpr fuel v env₁ with
          | none => none
          | some (vv, env₂) =>
            if isError vv then some (vv, env₂)
            else evalHashPairs fuel rest env₂ (hashPairsInsert acc hk kv vv)

def applyFunction : Nat → Obj → List Obj → Option Obj
  | 0, _, _ => none
  | fuel + 1, .func params body fenv, args =>
    match bindArgs params args (envNewEnclosed fenv) with
    | none => none
    | some callEnv =>
      match evalBlockStmts fuel body callEnv with
      | none => none
      | some (r, _) => some (unwrapReturnValue r)
  | _ + 1, .builtinO name, args => builtinFn name args
  | _ + 1, fv, _ =>
    match typeOf fv with
    | none => none
    | some t => some (.error (("not a function: ") ++ t))

end

/-- Auxiliary runner used only to state claims about whole programs: run a
prefix of statements the way `evalProgram` does, but report only the
environment reached, and fail whenever the prefix would short-circuit on an
Error or ReturnValue.  The fuel accounting step-for-step matches
`evalProgramStmts`. -/
def execStmts : Nat → List Stmt → Env → Option (Nat × Env)
  | fuel, [], env => some (fuel, env)
  | 0, _ :: _, _ => none
  | fuel + 1, s :: rest, env =>
    match evalStmt fuel s env with
    | none => none
    | some (r, env₁) =>
      if isReturnValue r then none
      else if isError r then none
      else execStmts fuel rest env₁

/-! ### Parser AST

The parser's view of the AST keeps Go's nillability: every child produced
by a possibly-failing parse is an `Option`, `parseExpressionList` can yield
a nil slice (distinct from an empty one), and `ParseProgram` appends the
(possibly nil) result of every `parseStatement` call. -/

mutual

inductive PExpr where
  | ident (name : String)
  | intLit (value : Int)
  | boolLit (value : Bool)
  | strLit (value : String)
  | prefixE (op : String) (right : Option PExpr)
  | infixE (op : String) (left : Option PExpr) (right : Option PExpr)
  | ifE (cond : Option PExpr) (consequence : PBlock) (alternative : Option PBlock)
  | funcLit (params : Option (List String)) (body : PBlock)
  | callE (fn : Option PExpr) (args : Option (List (Option PExpr)))
  | arrayLit (elements : Option (List (Option PExpr)))
  | indexE (left : Option PExpr) (idx : Option PExpr)

inductive PBlock where
  | block (stmts : List (Option PStmt))

inductive PStmt where
  | letS (name : String) (value : Option PExpr)
  | returnS (value : Option PExpr)
  | exprS (e : Option PExpr)

end

/-- Test used to state claims: is this list entry a Let statement? -/
def isLetStmt : Option PStmt → Bool
  | some (.letS _ _) => true
  | _ => false

/-! ### Integer literal conversion

`strconv.ParseInt(s, 10, 32)` as called by `parseIntegerLiteral`: an
optional sign followed by decimal digits; a syntax error returns `(0,
err)`; a value outside the signed 32-bit range returns the clamped bound
together with a range error.  The second component is `true` exactly when
Go returns a nil error. -/

/-- Accumulate decimal digits; any non-digit is a syntax error. -/
def decVal : List Char → Nat → Option Nat
  | [], acc => some acc
  | c :: cs, acc => if c.isDigit then decVal cs (acc * 10 + (c.toNat - 48)) else none

/-- Model of `strconv.ParseInt(s, 10, 32)`, returning `(value, ok)`. -/
def goParseInt32 (s : String) : Int × Bool :=
  let cs := s.toList
  let signed : Bool × List Char :=
    match cs with
    | '+' :: rest => (false, rest)
    | '-' :: rest => (true, rest)
    | _ => (false, cs)
  match signed.2 with
  | [] => (0, false)
  | ds =>
    match decVal ds 0 with
    | none => (0, false)
    | some n =>
      let v : Int := if signed.1 then -(n : Int) else (n : Int)
      if v < -(2 ^ 31) then (-(2 ^ 31), false)
      else if v > 2 ^ 31 - 1 then (2 ^ 31 - 1, false)
      else (v, true)

/-! ### Parser state (parser.go) -/

/-- Precedence ladder (iota): LOWEST = 1 ... INDEX = 8.  The Go constant
for unary operators is named PREFIX. -/
def LOWEST : Nat := 1

def EQUALS : Nat := 2

def LESSGREATER : Nat := 3

def SUM : Nat := 4

def PRODUCT : Nat := 5

def PREFIX_PREC : Nat := 6

def CALL : Nat := 7

def INDEX : Nat := 8

/-- The `precedences` map; absent token types give LOWEST. -/
def tokenPrecedence (t : String) : Nat :=
  if t == token.EQ then EQUALS
  else if t == token.NOT_EQ then EQUALS
  else if t == token.LT then LESSGREATER
  else if t == token.GT then LESSGREATER
  else if t == token.PLUS then SUM
  else if t == token.MINUS then SUM
  else if t == token.SLASH then PRODUCT
  else if t == token.ASTERISK then PRODUCT
  else if t == token.LPAREN then CALL
  else if t == token.LBRACKET then INDEX
  else LOWEST

/-- The parser: the not-yet-consumed lexer output, the `cur` and `peek`
tokens, and the accumulated error strings. -/
structure Parser where
  rest : List Token
  curToken : Token
  peekToken : Token
  errors : List String
deriving Repr

/-- `Parser.nextToken`: shift `peek` into `cur` and pull the next token;
the lexer emits EOF tokens indefinitely after input exhaustion. -/
def nextToken (p : Parser) : Parser :=
  match p.rest with
  | [] => { p with curToken := p.peekToken, peekToken := ⟨token.EOF, ""⟩ }
  | t :: ts => { p with curToken := p.peekToken, peekToken := t, rest := ts }

/-- `parser.New`: fresh parser advanced twice to populate `cur`/`peek`. -/
def New (tokens : List Token) : Parser :=
  nextToken (nextToken ⟨tokens, ⟨"", ""⟩, ⟨"", ""⟩, []⟩)

def curTokenIs (p : Parser) (t : String) : Bool := p.curToken.type == t

def peekTokenIs (p : Parser) (t : String) : Bool := p.peekToken.type == t

def peekPrecedence (p : Parser) : Nat := tokenPrecedence p.peekToken.type

def curPrecedence (p : Parser) : Nat := tokenPrecedence p.curToken.type

/-- `peekError`: record `Expected token <expected>, instead got <actual>`. -/
def peekError (p : Parser) (t : String) : Parser :=
  { p with errors :=
      p.errors ++ [("Expected token ") ++ t ++ (", instead got ") ++ p.peekToken.type] }

/-- `expectPeek`: advance on a match, record a peek error otherwise. -/
def expectPeek (p : Parser) (t : String) : Bool × Parser :=
  if peekTokenIs p t then (true, nextToken p) else (false, peekError p t)

/-- Token types with a registered prefix parse function. -/
def hasPrefixFn (t : String) : Bool :=
  t ∈ [token.IDENT, token.INT, token.BANG, token.MINUS, token.TRUE, token.FALSE,
    token.LPAREN, token.IF, token.FUNCTION, token.STRING, token.LBRACKET]

/-- Token types with a registered infix parse function. -/
def hasInfixFn (t : String) : Bool :=
  t ∈ [token.PLUS, token.MINUS, token.SLASH, token.ASTERISK, token.EQ, token.NOT_EQ,
    token.LT, token.GT, token.LPAREN, token.LBRACKET]

/-- `parseIdentifier`. -/
def parseIdentifier (p : Parser) : Option PExpr × Parser :=
  (some (.ident p.curToken.literal), p)

/-- `parseBoolean`. -/
def parseBoolean (p : Parser) : Option PExpr × Parser :=
  (some (.boolLit (curTokenIs p token.TRUE)), p)

/-- `parseStringLiteral`. -/
def parseStringLiteral (p : Parser) : Option PExpr × Parser :=
  (some (.strLit p.curToken.literal), p)

/-- `parseIntegerLiteral`: a failed `strconv.ParseInt(literal, 10, 32)`
records `could not parse <literal> as integer`; the node is returned either
way, carrying the (possibly clamped) parse result.  (Appending the empty
list on success is observably identical to Go's conditional append and
keeps the token fields unconditional.) -/
def parseIntegerLiteral (p : Parser) : Option PExpr × Parser :=
  (some (.intLit (goParseInt32 p.curToken.literal).1),
   { p with errors := p.errors ++
       (if (goParseInt32 p.curToken.literal).2 then []
        else [("could not parse ") ++ p.curToken.literal ++ (" as integer")]) })

/-! ### The mutually recursive parse functions

All carry fuel; the Go recursion is bounded by the input in practice, and
every concrete theorem below uses ample fuel. -/

mutual

def parseStatement : Nat → Parser → Option PStmt × Parser
  | 0, p => (none, p)
  | fuel + 1, p =>
    if curTokenIs p token.LET then parseLetStatement fuel p
    else if curTokenIs p token.RETURN then parseReturnStatement fuel p
    else parseExpressionStatement fuel p

def parseLetStatement : Nat → Parser → Option PStmt × Parser
  | 0, p => (none, p)
  | fuel + 1, p =>
    match expectPeek p token.IDENT with
    | (false, p₁) => (none, p₁)
    | (true, p₁) =>
      let name := p₁.curToken.literal
      match expectPeek p₁ token.ASSIGN with
      | (false, p₂) => (none, p₂)
      | (true, p₂) =>
        let p₃ := nextToken p₂
        match parseExpression fuel LOWEST p₃ with
        | (value, p₄) =>
          match expectPeek p₄ token.SEMICOLON with
          | (_, p₅) => (some (.letS name value), p₅)

def parseReturnStatement : Nat → Parser → Option PStmt × Parser
  | 0, p => (none, p)
  | fuel + 1, p =>
    let p₁ := nextToken p
    match parseExpression fuel LOWEST p₁ with
    | (value, p₂) =>
      match expectPeek p₂ token.SEMICOLON with
      | (_, p₃) => (some (.returnS value), p₃)

def parseExpressionStatement : Nat → Parser → Option PStmt × Parser
  | 0, p => (none, p)
  | fuel + 1, p =>
    match parseExpression fuel LOWEST p with
    | (e, p₁) =>
      let p₂ := if peekTokenIs p₁ token.SEMICOLON then nextToken p₁ else p₁
      (some (.exprS e), p₂)

def parseExpression : Nat → Nat → Parser → Option PExpr × Parser
  | 0, _, p => (none, p)
  | fuel + 1, prec, p =>
    if hasPrefixFn p.curToken.type then
      match callPrefixFn fuel p.curToken.type p with
      | (left, p₁) => parseExprLoop fuel prec left p₁
    else
      (none, { p with errors :=
        p.errors ++ [("No prefix parse function found for ") ++ p.curToken.type] })

def callPrefixFn : Nat → String → Parser → Option PExpr × Parser
  | 0, _, p => (none, p)
  | fuel + 1, t, p =>
    if t == token.IDENT then parseIdentifier p
    else if t == token.INT then parseIntegerLiteral p
    else if t == token.BANG || t == token.MINUS then parsePrefixExpression fuel p
    else if t == token.TRUE || t == token.FALSE then parseBoolean p
    else if t == token.LPAREN then parseGroupedExpression fuel p
    else if t == token.IF then parseIfExpression fuel p
    else if t == token.FUNCTION then parseFunctionLiteral fuel p
    else if t == token.STRING then parseStringLiteral p
    else if t == token.LBRACKET then parseArrayLiteral fuel p
    else (none, p)

def parseExprLoop : Nat → Nat → Option PExpr → Parser → Option PExpr × Parser
  | 0, _, left, p => (left, p)
  | fuel + 1, prec, left, p =>
    if !(peekTokenIs p token.SEMICOLON) && decide (prec < peekPrecedence p) then
      if hasInfixFn p.peekToken.type then
        let p₁ := nextToken p
        match callInfixFn fuel p₁.curToken.type left p₁ with
        | (left', p₂) => parseExprLoop fuel prec left' p₂
      else (left, p)
    else (left, p)

def callInfixFn : Nat → String → Option PExpr → Parser → Option PExpr × Parser
  | 0, _, _, p => (none, p)
  | fuel + 1, t, left, p =>
    if t == token.LPAREN then parseCallExpression fuel left p
    else if t == token.LBRACKET then parseIndexExpression fuel left p
    else parseInfixExpression fuel left p

def parseInfixExpression : Nat → Option PExpr → Parser → Option PExpr × Parser
  | 0, _, p => (none, p)
  | fuel + 1, left, p =>
    let op := p.curToken.literal
    let prec := curPrecedence p
    let p₁ := nextToken p
    match parseExpression fuel prec p₁ with
    | (right, p₂) => (some (.infixE op left right), p₂)

def parsePrefixExpression : Nat → Parser → Option PExpr × Parser
  | 0, p => (none, p)
  | fuel + 1, p =>
    let op := p.curToken.literal
    let p₁ := nextToken p
    match parseExpression fuel PREFIX_PREC p₁ with
    | (right, p₂) => (some (.prefixE op right), p₂)

def parseGroupedExpression : Nat → Parser → Option PExpr × Parser
  | 0, p => (none, p)
  | fuel + 1, p =>
    let p₁ := nextToken p
    match parseExpression fuel LOWEST p₁ with
    | (e, p₂) =>
      match expectPeek p₂ token.RPAREN with
      | (false, p₃) => (none, p₃)
      | (true, p₃) => (e, p₃)

def parseIfExpression : Nat → Parser → Option PExpr × Parser
  | 0, p => (none, p)
  | fuel + 1, p =>
    match expectPeek p token.LPAREN with
    | (false, p₁) => (none, p₁)
    | (true, p₁) =>
      let p₂ := nextToken p₁
      match parseExpression fuel LOWEST p₂ with
      | (cond, p₃) =>
        match expectPeek p₃ token.RPAREN with
        | (false, p₄) => (none, p₄)
        | (true, p₄) =>
          match expectPeek p₄ token.LBRACE with
          | (false, p₅) => (none, p₅)
          | (true, p₅) =>
            match parseBlockStatement fuel p₅ with
            | (cons, p₆) =>
              if peekTokenIs p₆ token.ELSE then
                let p₇ := nextToken p₆
                match expectPeek p₇ token.LBRACE with
                | (false, p₈) => (none, p₈)
                | (true, p₈) =>
                  match parseBlockStatement fuel p₈ with
                  | (alt, p₉) => (some (.ifE cond cons (some alt)), p₉)
              else (some (.ifE cond cons none), p₆)

def parseBlockStatement : Nat → Parser → PBlock × Parser
  | 0, p => (.block [], p)
  | fuel + 1, p =>
    let p₁ := nextToken p
    match parseBlockLoop fuel p₁ with
    | (stmts, p₂) => (.block stmts, p₂)

def parseBlockLoop : Nat → Parser → List (Option PStmt) × Parser
  | 0, p => ([], p)
  | fuel + 1, p =>
    if !(curTokenIs p token.RBRACE) && !(curTokenIs p token.EOF) then
      match parseStatement fuel p with
      | (s, p₁) =>
        let p₂ := nextToken p₁
        match parseBlockLoop fuel p₂ with
        | (rest, p₃) => (s :: rest, p₃)
    else ([], p)

def parseFunctionLiteral : Nat → Parser → Option PExpr × Parser
  | 0, p => (none, p)
  | fuel + 1, p =>
    match expectPeek p token.LPAREN with
    | (false, p₁) => (none, p₁)
    | (true, p₁) =>
      match parseFunctionParameters fuel p₁ with
      | (params, p₂) =>
        let p₃ := nextToken p₂
        match parseBlockStatement fuel p₃ with
        | (body, p₄) => (some (.funcLit params body), p₄)

def parseFunctionParameters : Nat → Parser → Option (List String) × Parser
  | 0, p => (none, p)
  | fuel + 1, p =>
    let p₁ := nextToken p
    if curTokenIs p₁ token.RPAREN then (some [], p₁)
    else
      match parseFnParamsLoop fuel p₁ with
      | (more, p₂) =>
        match expectPeek p₂ token.RPAREN with
        | (false, p₃) => (none, p₃)
        | (true, p₃) => (some (p₁.curToken.literal :: more), p₃)

def parseFnParamsLoop : Nat → Parser → List String × Parser
  | 0, p => ([], p)
  | fuel + 1, p =>
    if peekTokenIs p token.COMMA then
      let p₁ := nextToken (nextToken p)
      match parseFnParamsLoop fuel p₁ with
      | (more, p₂) => (p₁.curToken.literal :: more, p₂)
    else ([], p)

def parseCallExpression : Nat → Option PExpr → Parser → Option PExpr × Parser
  | 0, _, p => (none, p)
  | fuel + 1, left, p =>
    match parseExpressionList fuel token.RPAREN p with
    | (args, p₁) => (some (.callE left args), p₁)

def parseExpressionList : Nat → String → Parser → Option (List (Option PExpr)) × Parser
  | 0, _, p => (none, p)
  | fuel + 1, endT, p =>
    let p₁ := nextToken p
    if curTokenIs p₁ endT then (some [], p₁)
    else
      match parseExpression fuel LOWEST p₁ with
      | (first, p₂) =>
        match parseExprListLoop fuel p₂ with
        | (more, p₃) =>
          match expectPeek p₃ endT with
          | (false, p₄) => (none, p₄)
          | (true, p₄) => (some (first :: more), p₄)

def parseExprListLoop : Nat → Parser → List (Option PExpr) × Parser
  | 0, p => ([], p)
  | fuel + 1, p =>
    if peekTokenIs p token.COMMA then
      let p₁ := nextToken (nextToken p)
      match parseExpression fuel LOWEST p₁ with
      | (e, p₂) =>
        match parseExprListLoop fuel p₂ with
        | (more, p₃) => (e :: more, p₃)
    else ([], p)

def parseArrayLiteral : Nat → Parser → Option PExpr × Parser
  | 0, p => (none, p)
  | fuel + 1, p =>
    match parseExpressionList fuel token.RBRACKET p with
    | (elems, p₁) => (some (.arrayLit elems), p₁)

def parseIndexExpression : Nat → Option PExpr → Parser → Option PExpr × Parser
  | 0, _, p => (none, p)
  | fuel + 1, left, p =>
    let p₁ := nextToken p
    match parseExpression fuel LOWEST p₁ with
    | (idx, p₂) =>
      match expectPeek p₂ token.RBRACKET with
      | (false, p₃) => (none, p₃)
      | (true, p₃) => (some (.indexE left idx), p₃)

end

/-- The `ParseProgram` loop: parse statements until `cur` is EOF, appending
every result (nil ones included). -/
def parseProgramLoop : Nat → Parser → List (Option PStmt) × Parser
  | 0, p => ([], p)
  | fuel + 1, p =>
    if curTokenIs p token.EOF then ([], p)
    else
      match parseStatement fuel p with
      | (s, p₁) =>
        let p₂ := nextToken p₁
        match parseProgramLoop fuel p₂ with
        | (rest, p₃) => (s :: rest, p₃)

/-- `New` followed by `ParseProgram`: the program's statement list and the
final parser state (whose `errors` is `Parser.Errors()`). -/
def ParseProgram (fuel : Nat) (tokens : List Token) : List (Option PStmt) × Parser :=
  parseProgramLoop fuel (New tokens)

/-! ## Theorems for the claims -/

/-! ### C10: HashKey derivation -/

/-- C10: HashKey derivation is injective on Integer and Boolean keys -
distinct `int64` values give distinct HashKeys (the bit cast to `uint64` is
a bijection on the 64-bit range), `true` and `false` give distinct
HashKeys, and Integer, Boolean and String keys never share a HashKey
because the type tags differ. -/
theorem claim10_hashkey_injective :
    (∀ a b : Int, -(2 ^ 63) ≤ a → a < 2 ^ 63 → -(2 ^ 63) ≤ b → b < 2 ^ 63 →
      a ≠ b → integerHashKey a ≠ integerHashKey b) ∧
    booleanHashKey true ≠ booleanHashKey false ∧
    (∀ (a : Int) (b : Bool), integerHashKey a ≠ booleanHashKey b) ∧
    (∀ (a : Int) (s : String), integerHashKey a ≠ stringHashKey s) ∧
    (∀ (b : Bool) (s : String), booleanHashKey b ≠ stringHashKey s) := by
  refine ⟨?_, ?_, ?_, ?_, ?_⟩
  · intro a b ha1 ha2 hb1 hb2 hne h
    apply hne
    have hv : toUInt64Bits a = toUInt64Bits b := congrArg HashKey.value h
    unfold toUInt64Bits at hv
    have hpow : (2 : Int) ^ 64 = 18446744073709551616 := by norm_num
    have hpow' : (2 : Int) ^ 63 = 9223372036854775808 := by norm_num
    rw [hpow] at hv
    rw [hpow'] at ha1 ha2 hb1 hb2
    omega
  · intro h
    have := congrArg HashKey.value h
    simp [booleanHashKey] at this
  · intro a b h
    have := congrArg HashKey.type h
    simp [integerHashKey, booleanHashKey, INTEGER_OBJ, BOOLEAN_OBJ] at this
  · intro a s h
    have := congrArg HashKey.type h
    simp [integerHashKey, stringHashKey, INTEGER_OBJ, STRING_OBJ] at this
  · intro b s h
    have := congrArg HashKey.type h
    simp [booleanHashKey, stringHashKey, BOOLEAN_OBJ, STRING_OBJ] at this

/-- C10 witness: the claim instantiated on concrete keys. -/
theorem claim10_hashkey_injective_witness :
    integerHashKey 0 ≠ integerHashKey 1 ∧ integerHashKey (-1) ≠ booleanHashKey true :=
  ⟨claim10_hashkey_injective.1 0 1 (by decide) (by decide) (by decide) (by decide)
    (by decide),
   claim10_hashkey_injective.2.2.1 (-1) true⟩

/-! ### C2: the builtin `tail` -/

/-- C2 counterexample: `tail` applied to a one-element array returns the
empty array, not a one-element copy as the claim states. -/
theorem claim2_tail_counterexample :
    tail [Obj.array [Obj.integer 1]] = some (Obj.array []) ∧
    Obj.array [] ≠ Obj.array [Obj.integer 1] := by
  refine ⟨rfl, ?_⟩
  simp

/-- C2 amended: `tail` on an Array returns a new Array of all elements but
the first - so the empty array and every single-element array map to the
empty array - and `tail` of a non-Array argument returns an Error value. -/
theorem claim2_tail_amended :
    tail [Obj.array []] = some (Obj.array []) ∧
    (∀ x : Obj, tail [Obj.array [x]] = some (Obj.array [])) ∧
    (∀ (x y : Obj) (rest : List Obj),
      tail [Obj.array (x :: y :: rest)] = some (Obj.array (y :: rest))) ∧
    (∀ o : Obj, isArrayObj o = false → isNilObj o = false →
      ∃ m, tail [o] = some (.error m)) := by
  refine ⟨rfl, fun x => rfl, fun x y rest => ?_, fun o h1 h2 => ?_⟩
  · have hlen : ¬((x :: y :: rest).length < 2) := by
      simp only [List.length_cons]
      omega
    simp [tail, hlen]
  · cases o <;> simp_all [isNilObj, isArrayObj] <;> exact ⟨_, rfl⟩

/-- C2 witness: the amended claim instantiated on concrete arrays and a
non-array argument. -/
theorem claim2_tail_amended_witness :
    tail [Obj.array [Obj.integer 1, Obj.integer 2, Obj.integer 3]] =
      some (Obj.array [Obj.integer 2, Obj.integer 3]) ∧
    (∃ m, tail [Obj.integer 7] = some (.error m)) :=
  ⟨claim2_tail_amended.2.2.1 (Obj.integer 1) (Obj.integer 2) [Obj.integer 3],
   claim2_tail_amended.2.2.2 (Obj.integer 7) rfl rfl⟩

/-! ### C1: identifier resolution order -/

/-- C1 counterexample: after `let len = 5`, the identifier `len` evaluates
to the builtin, not to the bound Integer 5 - the builtins table takes
precedence over the environment binding. -/
theorem claim1_identifier_counterexample :
    evalProgramStmts 5 [.letS ("len") (.intLit 5), .exprS (.ident ("len"))] [[]] =
      some (Obj.builtinO ("len"), [[(("len"), Obj.integer 5)]]) ∧
    Obj.builtinO ("len") ≠ Obj.integer 5 := by
  refine ⟨rfl, ?_⟩
  simp

/-- C1 amended: `evalIdentifier` consults the builtins table first; the
environment result is used only when the name is not a builtin; only on a
miss in both is the error `identifier not found: <name>` produced. -/
theorem claim1_identifier_amended :
    (∀ (name : String) (env : Env) (b : Obj),
      builtins name = some b → evalIdentifier name env = b) ∧
    (∀ (name : String) (env : Env) (v : Obj),
      builtins name = none → envGet env name = some v → evalIdentifier name env = v) ∧
    (∀ (name : String) (env : Env),
      builtins name = none → envGet env name = none →
      evalIdentifier name env = .error (("identifier not found: ") ++ name)) := by
  refine ⟨?_, ?_, ?_⟩
  · intro name env b h
    simp [evalIdentifier, h]
  · intro name env v h1 h2
    simp [evalIdentifier, h1, h2]
  · intro name env h1 h2
    simp [evalIdentifier, h1, h2]

/-- C1 witness: the amended claim instantiated on a builtin name shadowing
a binding, a plain binding, and a miss. -/
theorem claim1_identifier_amended_witness :
    evalIdentifier ("len") [[(("len"), Obj.integer 5)]] = Obj.builtinO ("len") ∧
    evalIdentifier ("x") [[(("x"), Obj.integer 1)]] = Obj.integer 1 ∧
    evalIdentifier ("y") [[]] = Obj.error (("identifier not found: ") ++ ("y")) :=
  ⟨claim1_identifier_amended.1 ("len") [[(("len"), Obj.integer 5)]] _ rfl,
   claim1_identifier_amended.2.1 ("x") [[(("x"), Obj.integer 1)]] _ rfl rfl,
   claim1_identifier_amended.2.2 ("y") [[]] rfl rfl⟩

/-! ### C5: user-function arity -/

/-- C5 counterexample: calling a one-parameter function with two arguments
makes the binding loop index `Parameters[1]`, which is out of range - the
call panics (modelled `none`) instead of ignoring the extra argument. -/
theorem claim5_arity_counterexample :
    applyFunction 5 (Obj.func [("a")] [] [[]]) [Obj.integer 1, Obj.integer 2] = none := rfl

/-- The binding loop succeeds when the arguments (from index `i` on) fit in
the parameter list. -/
theorem bindArgsLoop_isSome :
    ∀ (args : List Obj) (params : List String) (i : Nat) (env : Env),
      i + args.length ≤ params.length → ∃ e, bindArgsLoop params i args env = some e := by
  intro args
  induction args with
  | nil => exact fun params i env _ => ⟨env, rfl⟩
  | cons a rest ih =>
    intro params i env h
    have hi : i < params.length := by
      simp only [List.length_cons] at h
      omega
    have hp : params[i]? = some params[i] := List.getElem?_eq_getElem hi
    rw [bindArgsLoop, hp]
    exact ih params (i + 1) _ (by simp only [List.length_cons] at h; omega)

/-- The binding loop hits an out-of-range parameter index whenever there
are more arguments left than parameters. -/
theorem bindArgsLoop_none :
    ∀ (args : List Obj) (params : List String) (i : Nat) (env : Env),
      i ≤ params.length → params.length < i + args.length →
      bindArgsLoop params i args env = none := by
  intro args
  induction args with
  | nil =>
    intro params i env h1 h2
    exfalso
    simp only [List.length_nil] at h2
    omega
  | cons a rest ih =>
    intro params i env h1 h2
    rcases Nat.lt_or_ge i params.length with hi | hi
    · have hp : params[i]? = some params[i] := List.getElem?_eq_getElem hi
      rw [bindArgsLoop, hp]
      exact ih params (i + 1) _ hi (by simp only [List.length_cons] at h2; omega)
    · have hp : params[i]? = none := by
        rw [List.getElem?_eq_none_iff]
        omega
      rw [bindArgsLoop, hp]

/-- C5 amended: parameter binding is positional and total exactly when the
argument count is at most the parameter count; with more arguments than
parameters the binding loop performs an out-of-range parameter access
(a panic, not silent ignoring); and a successful binding evaluates the body
and unwraps an outermost ReturnValue. -/
theorem claim5_arity_amended :
    (∀ (params : List String) (args : List Obj) (env : Env),
      args.length ≤ params.length → ∃ env', bindArgs params args env = some env') ∧
    (∀ (params : List String) (args : List Obj) (env : Env),
      params.length < args.length → bindArgs params args env = none) ∧
    (∀ (fuel : Nat) (params : List String) (body : List Stmt) (fenv : Env)
      (args : List Obj) (callEnv : Env) (r : Obj) (env' : Env),
      bindArgs params args (envNewEnclosed fenv) = some callEnv →
      evalBlockStmts fuel body callEnv = some (r, env') →
      applyFunction (fuel + 1) (.func params body fenv) args = some (unwrapReturnValue r)) := by
  refine ⟨?_, ?_, ?_⟩
  · intro params args env h
    exact bindArgsLoop_isSome args params 0 env (by omega)
  · intro params args env h
    exact bindArgsLoop_none args params 0 env (by omega) (by omega)
  · intro fuel params body fenv args callEnv r env' h1 h2
    simp only [applyFunction, bindArgs] at h1 ⊢
    rw [h1]
    simp [h2]

/-- C5 witness: the amended claim instantiated on a matching call, an
overfull binding, and a one-argument call of a one-parameter function. -/
theorem claim5_arity_amended_witness :
    (∃ env', bindArgs [("a")] [Obj.integer 7] [[]] = some env') ∧
    bindArgs [] [Obj.integer 7] [[]] = none ∧
    applyFunction 4 (Obj.func [("a")] [.exprS (.ident ("a"))] [[]]) [Obj.integer 7] =
      some (unwrapReturnValue (Obj.integer 7)) :=
  ⟨claim5_arity_amended.1 [("a")] [Obj.integer 7] [[]] (by decide),
   claim5_arity_amended.2.1 [] [Obj.integer 7] [[]] (by decide),
   claim5_arity_amended.2.2 3 [("a")] [.exprS (.ident ("a"))] [[]] [Obj.integer 7]
     [[(("a"), Obj.integer 7)], []] (Obj.integer 7) [[(("a"), Obj.integer 7)], []] rfl rfl⟩

/-! ### C6: parser error on `let = 5;` -/

/-- The token stream of the input `let = 5;`, lexed per spec section 6.1. -/
def letEq5Tokens : List Token :=
  [⟨token.LET, "let"⟩, ⟨token.ASSIGN, "="⟩, ⟨token.INT, "5"⟩, ⟨token.SEMICOLON, ";"⟩]

/-- C6: parsing `let = 5;` leaves the error list non-empty and produces no
Let statement among the program's statements (the failed
`parseLetStatement` yields a nil statement). -/
theorem claim6_let_eq_5 :
    (ParseProgram 10 letEq5Tokens).2.errors ≠ [] ∧
    ((ParseProgram 10 letEq5Tokens).1.all fun s => !isLetStmt s) = true := by
  refine ⟨?_, rfl⟩
  decide

/-! ### C4: 32-bit integer literal parsing -/

/-- The token stream of the input `3000000000`. -/
def overflowTokens : List Token := [⟨token.INT, "3000000000"⟩]

/-- The token stream of the input `5`. -/
def smallIntTokens : List Token := [⟨token.INT, "5"⟩]

/-- C4: the source parses integer literals with `strconv.ParseInt(_, 10,
32)`, so `3000000000` - comfortably inside the signed 64-bit range the
claim requires - records `could not parse 3000000000 as integer` and the
literal is clamped to 2147483647, while a 32-bit literal like `5` parses
without error. -/
theorem claim4_int32_parse :
    (ParseProgram 10 overflowTokens).2.errors = [("could not parse 3000000000 as integer")] ∧
    (ParseProgram 10 overflowTokens).1 = [some (.exprS (some (.intLit 2147483647)))] ∧
    (ParseProgram 10 smallIntTokens).2.errors = [] ∧
    (ParseProgram 10 smallIntTokens).1 = [some (.exprS (some (.intLit 5)))] :=
  ⟨rfl, rfl, rfl, rfl⟩

/-! ### C9: totality of the builtins -/

/-- `length` never panics on proper (non-nil) arguments. -/
theorem length_isSome (args : List Obj) (h : (args.all fun a => !isNilObj a) = true) :
    (length args).isSome = true := by
  match args with
  | [] => rfl
  | [a] => cases a <;> simp_all [length, isNilObj, typeOf]
  | a :: b :: rest => cases a <;> rfl

/-- `head` never panics on proper arguments; the only element access is
behind the emptiness check. -/
theorem head_isSome (args : List Obj) (h : (args.all fun a => !isNilObj a) = true) :
    (head args).isSome = true := by
  match args with
  | [] => rfl
  | [a] =>
    cases a with
    | array es => cases es <;> rfl
    | _ => simp_all [head, isNilObj, typeOf]
  | a :: b :: rest =>
    cases a <;> try rfl
    all_goals rename_i es
    all_goals cases es <;> rfl

/-- `tail` never panics on proper arguments. -/
theorem tail_isSome (args : List Obj) (h : (args.all fun a => !isNilObj a) = true) :
    (tail args).isSome = true := by
  match args with
  | [] => rfl
  | [a] =>
    cases a with
    | array es => by_cases hl : es.length < 2 <;> simp [tail, hl]
    | _ => simp_all [tail, isNilObj, typeOf]
  | a :: b :: rest => cases a <;> rfl

/-- `last` never panics on proper arguments; the `Elements[len-1]` access
is behind the emptiness check. -/
theorem last_isSome (args : List Obj) (h : (args.all fun a => !isNilObj a) = true) :
    (last args).isSome = true := by
  match args with
  | [] => rfl
  | [a] =>
    cases a with
    | array es =>
      cases hl : es.getLast? <;> simp [last, hl]
    | _ => simp_all [last, isNilObj, typeOf]
  | a :: b :: rest => cases a <;> rfl

/-- `push` never panics on proper arguments. -/
theorem push_isSome (args : List Obj) (h : (args.all fun a => !isNilObj a) = true) :
    (push args).isSome = true := by
  match args with
  | [] => rfl
  | [a] => cases a <;> rfl
  | [a, b] => cases a <;> simp_all [push, isNilObj, typeOf]
  | a :: b :: c :: rest => cases a <;> rfl

/-- C9: every installed builtin is total over proper argument vectors - a
wrong argument count or an unsupported argument type yields an Error value,
and the element accesses in `head` and `last` are guarded by the preceding
emptiness checks, so no builtin invocation performs an out-of-bounds
access (none of them can return the panic marker `none`). -/
theorem claim9_builtins_total :
    (∀ (name : String) (args : List Obj), (builtins name).isSome = true →
      (args.all fun a => !isNilObj a) = true → (builtinFn name args).isSome = true) ∧
    (∀ (name : String) (args : List Obj),
      name ∈ [("len"), ("head"), ("tail"), ("last")] → args.length ≠ 1 →
      builtinFn name args =
        some (.error (("wrong number of arguments. got=") ++ toString args.length ++
          (", want=1)")))) ∧
    (∀ args : List Obj, args.length ≠ 2 →
      builtinFn ("push") args =
        some (.error (("wrong number of arguments. got=") ++ toString args.length ++
          (", want=2)")))) ∧
    (∀ a : Obj, isNilObj a = false → isStringObj a = false → isArrayObj a = false →
      ∃ m, length [a] = some (.error m)) ∧
    (∀ a : Obj, isNilObj a = false → isArrayObj a = false →
      (∃ m, head [a] = some (.error m)) ∧ (∃ m, tail [a] = some (.error m)) ∧
      (∃ m, last [a] = some (.error m))) ∧
    (∀ a b : Obj, isNilObj a = false → isArrayObj a = false →
      ∃ m, push [a, b] = some (.error m)) := by
  refine ⟨?_, ?_, ?_, ?_, ?_, ?_⟩
  · intro name args h1 h2
    have hmem : name ∈ [("len"), ("head"), ("tail"), ("last"), ("push")] := by
      by_contra hc
      simp [builtins, hc] at h1
    simp only [List.mem_cons, List.mem_singleton, List.not_mem_nil, or_false] at hmem
    rcases hmem with rfl | rfl | rfl | rfl | rfl
    · exact length_isSome args h2
    · exact head_isSome args h2
    · exact tail_isSome args h2
    · exact last_isSome args h2
    · exact push_isSome args h2
  · intro name args hmem hlen
    simp only [List.mem_cons, List.mem_singleton, List.not_mem_nil, or_false] at hmem
    rcases hmem with rfl | rfl | rfl | rfl <;>
      match args with
      | [] => rfl
      | [a] => exact absurd rfl hlen
      | a :: b :: rest =>
        cases a <;> try rfl
        all_goals rename_i es
        all_goals cases es <;> rfl
  · intro args hlen
    match args with
    | [] => rfl
    | [a] => cases a <;> rfl
    | [a, b] => exact absurd rfl hlen
    | a :: b :: c :: rest => cases a <;> rfl
  · intro a h1 h2 h3
    cases a <;> simp_all [isNilObj, isStringObj, isArrayObj] <;> exact ⟨_, rfl⟩
  · intro a h1 h2
    refine ⟨?_, ?_, ?_⟩ <;> cases a <;> simp_all [isNilObj, isArrayObj] <;> exact ⟨_, rfl⟩
  · intro a b h1 h2
    cases a <;> simp_all [isNilObj, isArrayObj] <;> exact ⟨_, rfl⟩

/-- C9 witness: the claim instantiated on concrete argument vectors. -/
theorem claim9_builtins_total_witness :
    (builtinFn ("len") [Obj.integer 1]).isSome = true ∧
    builtinFn ("head") [] =
      some (.error (("wrong number of arguments. got=") ++ toString (0 : Nat) ++
        (", want=1)"))) ∧
    builtinFn ("push") [Obj.array []] =
      some (.error (("wrong number of arguments. got=") ++ toString (1 : Nat) ++
        (", want=2)"))) ∧
    (∃ m, length [Obj.integer 1] = some (.error m)) ∧
    (∃ m, tail [Obj.boolean true] = some (.error m)) ∧
    (∃ m, push [Obj.null, Obj.integer 2] = some (.error m)) := by
  refine ⟨claim9_builtins_total.1 ("len") [Obj.integer 1] rfl rfl, ?_, ?_,
    claim9_builtins_total.2.2.2.1 (Obj.integer 1) rfl rfl rfl,
    (claim9_builtins_total.2.2.2.2.1 (Obj.boolean true) rfl rfl).2.1,
    claim9_builtins_total.2.2.2.2.2 Obj.null (Obj.integer 2) rfl rfl⟩
  · have := claim9_builtins_total.2.1 ("head") [] (by decide) (by decide)
    simpa using this
  · have := claim9_builtins_total.2.2.1 [Obj.array []] (by decide)
    simpa using this

/-! ### C7: ReturnValue propagation through blocks -/

/-- The nested-return program
`if (10 > 1) then (if (10 > 1) then return 9; return 10)`. -/
def nestedIfStmt : Stmt :=
  .exprS (.ifE (.infixE ">" (.intLit 10) (.intLit 1))
    [ .exprS (.ifE (.infixE ">" (.intLit 10) (.intLit 1)) [.returnS (.intLit 9)] none),
      .returnS (.intLit 10) ] none)

/-- C7: a block stops at the first Error or ReturnValue and passes it on
unchanged, `evalProgram` unwraps an outermost ReturnValue to its payload,
`applyFunction` does too, and the nested-return program evaluates to
Integer 9 in the empty environment. -/
theorem claim7_return_propagation :
    (∀ (fuel : Nat) (s : Stmt) (rest : List Stmt) (env : Env) (r : Obj) (env₁ : Env),
      evalStmt fuel s env = some (r, env₁) → (isReturnValue r || isError r) = true →
      evalBlockStmts (fuel + 1) (s :: rest) env = some (r, env₁)) ∧
    (∀ (fuel : Nat) (s : Stmt) (rest : List Stmt) (env : Env) (v : Obj) (env₁ : Env),
      evalStmt fuel s env = some (.returnValue v, env₁) →
      evalProgramStmts (fuel + 1) (s :: rest) env = some (v, env₁)) ∧
    (∀ (fuel : Nat) (params : List String) (body : List Stmt) (fenv : Env)
      (args : List Obj) (callEnv : Env) (v : Obj) (env' : Env),
      bindArgs params args (envNewEnclosed fenv) = some callEnv →
      evalBlockStmts fuel body callEnv = some (.returnValue v, env') →
      applyFunction (fuel + 1) (.func params body fenv) args = some v) ∧
    evalProgramStmts 10 [nestedIfStmt] [[]] = some (.integer 9, [[]]) := by
  refine ⟨?_, ?_, ?_, rfl⟩
  · intro fuel s rest env r env₁ h1 h2
    rcases Bool.or_eq_true_iff.mp h2 with h | h <;> simp [evalBlockStmts, h1, h]
  · intro fuel s rest env v env₁ h
    simp [evalProgramStmts, h]
  · intro fuel params body fenv args callEnv v env' h1 h2
    simp only [applyFunction, bindArgs] at h1 ⊢
    rw [h1]
    simp [h2, unwrapReturnValue]

/-- C7 witness: the claim instantiated on a concrete early return inside a
two-statement block, a program, and a function call. -/
theorem claim7_return_propagation_witness :
    evalBlockStmts 3 [.returnS (.intLit 3), .exprS (.intLit 1)] [[]] =
      some (.returnValue (.integer 3), [[]]) ∧
    evalProgramStmts 3 [.returnS (.intLit 3), .exprS (.intLit 1)] [[]] =
      some (.integer 3, [[]]) ∧
    applyFunction 4 (Obj.func [] [.returnS (.intLit 5)] [[]]) [] = some (Obj.integer 5) :=
  ⟨claim7_return_propagation.1 2 (.returnS (.intLit 3)) [.exprS (.intLit 1)] [[]]
     (.returnValue (.integer 3)) [[]] rfl rfl,
   claim7_return_propagation.2.1 2 (.returnS (.intLit 3)) [.exprS (.intLit 1)] [[]]
     (.integer 3) [[]] rfl,
   claim7_return_propagation.2.2.1 3 [] [.returnS (.intLit 5)] [[]] []
     ([[], []] : Env) (Obj.integer 5) ([[], []] : Env) rfl rfl⟩

/-! ### C8: a final let statement yields the bound value -/

/-- C8: evaluating a let statement returns the value being bound
(`Environment.Set` returns its argument), so a program whose final
statement is `let x = E;`, reached without an early Error or ReturnValue
and with `E` evaluating to a non-error, non-sentinel value `v`, evaluates
to `v` (and not to NULL). -/
theorem claim8_let_returns_bound_value :
    (∀ (fuel : Nat) (x : String) (E : Expr) (env : Env) (v : Obj) (envE : Env),
      evalExpr fuel E env = some (v, envE) → isError v = false →
      evalStmt (fuel + 1) (.letS x E) env = some (v, envSet envE x v)) ∧
    (∀ (stmts : List Stmt) (fuel f' : Nat) (x : String) (E : Expr) (env env₁ : Env)
      (v : Obj) (envE : Env),
      execStmts fuel stmts env = some (f' + 2, env₁) →
      evalExpr f' E env₁ = some (v, envE) →
      isError v = false → isReturnValue v = false →
      evalProgramStmts fuel (stmts ++ [.letS x E]) env = some (v, envSet envE x v)) := by
  have hlet : ∀ (fuel : Nat) (x : String) (E : Expr) (env : Env) (v : Obj) (envE : Env),
      evalExpr fuel E env = some (v, envE) → isError v = false →
      evalStmt (fuel + 1) (.letS x E) env = some (v, envSet envE x v) := by
    intro fuel x E env v envE h1 h2
    simp [evalStmt, h1, h2]
  refine ⟨hlet, ?_⟩
  intro stmts
  induction stmts with
  | nil =>
    intro fuel f' x E env env₁ v envE hex hE hErr hRet
    have h1 : fuel = f' + 2 ∧ env = env₁ := by simpa [execStmts] using hex
    obtain ⟨rfl, rfl⟩ := h1
    have hstmt := hlet f' x E env v envE hE hErr
    show evalProgramStmts (f' + 1 + 1) (.letS x E :: []) env = some (v, envSet envE x v)
    rw [evalProgramStmts]
    simp only [hstmt]
    cases v <;> simp_all [isReturnValue, isError]
  | cons s rest' ih =>
    intro fuel f' x E env env₁ v envE hex hE hErr hRet
    cases fuel with
    | zero => simp [execStmts] at hex
    | succ g =>
      rw [execStmts] at hex
      cases hs : evalStmt g s env with
      | none => simp [hs] at hex
      | some pr =>
        obtain ⟨r, env'⟩ := pr
        simp only [hs] at hex
        cases hr : isReturnValue r with
        | true => simp [hr] at hex
        | false =>
          cases he : isError r with
          | true => simp [hr, he] at hex
          | false =>
            simp only [hr, he, Bool.false_eq_true, if_false] at hex
            have hrec := ih g f' x E env' env₁ v envE hex hE hErr hRet
            show evalProgramStmts (g + 1) ((s :: rest') ++ [.letS x E]) env = _
            rw [List.cons_append, evalProgramStmts]
            simp only [hs]
            have hne : (rest' ++ [Stmt.letS x E]).isEmpty = false := by
              cases rest' <;> rfl
            cases r <;>
              first
                | (rw [if_neg (by rw [hne]; exact Bool.false_ne_true)]; exact hrec)
                | (simp only [isReturnValue] at hr; exact Bool.noConfusion hr)
                | (simp only [isError] at he; exact Bool.noConfusion he)

/-- C8 witness: the claim instantiated on `1; let x = 5;`. -/
theorem claim8_let_returns_bound_value_witness :
    evalStmt 2 (.letS ("x") (.intLit 5)) [[]] =
      some (Obj.integer 5, [[(("x"), Obj.integer 5)]]) ∧
    evalProgramStmts 4 [.exprS (.intLit 1), .letS ("x") (.intLit 5)] [[]] =
      some (Obj.integer 5, [[(("x"), Obj.integer 5)]]) :=
  ⟨claim8_let_returns_bound_value.1 1 ("x") (.intLit 5) [[]] (Obj.integer 5) [[]] rfl rfl,
   claim8_let_returns_bound_value.2 [.exprS (.intLit 1)] 4 1 ("x") (.intLit 5) [[]] [[]]
     (Obj.integer 5) [[]] rfl rfl rfl rfl⟩

/-! ### C3: trailing semicolons after let and return -/

/-- Token stream of `let <x> = <lit>` with no trailing semicolon. -/
def letNoSemiTokens (x lit : String) : List Token :=
  [⟨token.LET, "let"⟩, ⟨token.IDENT, x⟩, ⟨token.ASSIGN, "="⟩, ⟨token.INT, lit⟩]

/-- Token stream of `return <lit>` with no trailing semicolon. -/
def returnNoSemiTokens (lit : String) : List Token :=
  [⟨token.RETURN, "return"⟩, ⟨token.INT, lit⟩]

/-- C3 counterexample: parsing `let x = 5` with no trailing semicolon does
record a parser error (`expectPeek(SEMICOLON)` is unconditional), refuting
the claim that no error is recorded. -/
theorem claim3_semicolon_counterexample :
    (ParseProgram 10 (letNoSemiTokens ("x") ("5"))).2.errors =
      [("Expected token ;, instead got EOF")] ∧
    (ParseProgram 10 (letNoSemiTokens ("x") ("5"))).2.errors ≠ [] := by
  refine ⟨rfl, ?_⟩
  decide

/-- C3 amended: for `let <x> = <lit>` and `return <lit>` statements the
trailing semicolon may be omitted without changing the statement produced,
but the parser then records the additional error
`Expected token ;, instead got EOF` - the semicolon is demanded, not
optional. -/
theorem claim3_semicolon_amended :
    ∀ x lit : String,
      ((ParseProgram 10 (letNoSemiTokens x lit)).1 =
        (ParseProgram 10 (letNoSemiTokens x lit ++ [⟨token.SEMICOLON, ";"⟩])).1 ∧
       (ParseProgram 10 (letNoSemiTokens x lit)).2.errors =
        (ParseProgram 10 (letNoSemiTokens x lit ++ [⟨token.SEMICOLON, ";"⟩])).2.errors ++
          [("Expected token ;, instead got EOF")]) ∧
      ((ParseProgram 10 (returnNoSemiTokens lit)).1 =
        (ParseProgram 10 (returnNoSemiTokens lit ++ [⟨token.SEMICOLON, ";"⟩])).1 ∧
       (ParseProgram 10 (returnNoSemiTokens lit)).2.errors =
        (ParseProgram 10 (returnNoSemiTokens lit ++ [⟨token.SEMICOLON, ";"⟩])).2.errors ++
          [("Expected token ;, instead got EOF")]) := by
  intro x lit
  exact ⟨⟨rfl, rfl⟩, ⟨rfl, rfl⟩⟩

end Monkey
